import Mathlib

/-!
Verification development for `src/execute_verify.py`, a GitHub asset
compliance verification script.  Strings are embedded as `List Char`;
documents fetched from the remote API are plain text; the Python `re`
library is modelled by a small derivative-based matcher together with a
pattern parser that rejects malformed patterns (Python raises `re.error`
on those).  Fallible Python code (uncaught exceptions) is embedded with
`Except PyErr`.
-/

/-- Errors that Python raises and the script does not catch. -/
inductive PyErr
  | reError
  | keyError
deriving DecidableEq

instance {ε α : Type _} [DecidableEq ε] [DecidableEq α] : DecidableEq (Except ε α) :=
  fun a b =>
    match a, b with
    | .error x, .error y =>
      if h : x = y then .isTrue (h ▸ rfl) else .isFalse fun hc => h (Except.error.inj hc)
    | .error _, .ok _ => .isFalse fun hc => Except.noConfusion hc
    | .ok _, .error _ => .isFalse fun hc => Except.noConfusion hc
    | .ok x, .ok y =>
      if h : x = y then .isTrue (h ▸ rfl) else .isFalse fun hc => h (Except.ok.inj hc)

/-- `leadsWith needle hay` : `needle` is a prefix of `hay`
(used to embed Python's substring operator `in`). -/
def leadsWith : List Char → List Char → Bool
  | [], _ => true
  | _ :: _, [] => false
  | a :: as, b :: bs => a == b && leadsWith as bs

/-- Python's `needle in hay` : `needle` occurs contiguously in `hay`. -/
def containsStr : List Char → List Char → Bool
  | needle, [] => needle.isEmpty
  | needle, c :: t => leadsWith needle (c :: t) || containsStr needle t

/-- Python's `content.split("\n")`: split at every newline, keeping empty
pieces (the empty string splits to `[""]`). -/
def splitNewline : List Char → List (List Char)
  | [] => [[]]
  | c :: cs =>
    if c = '\n' then [] :: splitNewline cs
    else
      match splitNewline cs with
      | [] => [[c]]
      | l :: ls => (c :: l) :: ls

/-- The numeric token of `re` pattern `(\d+(?:\.\d+)?)` anchored at the head
of the list, with the rest of the list after the token: maximal run of
digits, optionally followed by a dot and a maximal nonempty run of digits.
`none` when the list does not start with a digit. -/
def numAt (l : List Char) : Option (List Char × List Char) :=
  match l with
  | [] => none
  | c :: _ =>
    if c.isDigit then
      let ds := List.takeWhile Char.isDigit l
      let rest := List.dropWhile Char.isDigit l
      match rest with
      | '.' :: r2 =>
        let fs := List.takeWhile Char.isDigit r2
        if fs.isEmpty then some (ds, rest)
        else some (ds ++ '.' :: fs, List.dropWhile Char.isDigit r2)
      | _ => some (ds, rest)
    else none

/-- `re.search(r"(\d+(?:\.\d+)?)", line)`: the leftmost numeric token
(integer or decimal) of the line, as text. -/
def firstNumericToken : List Char → Option (List Char)
  | [] => none
  | c :: cs =>
    match numAt (c :: cs) with
    | some (t, _) => some t
    | none => firstNumericToken cs

/-- All numeric tokens of a line in left-to-right scan order
(`re.findall` of the same pattern), driven by a fuel that the length of
the input always covers. -/
def numericTokensGo : Nat → List Char → List (List Char)
  | 0, _ => []
  | _ + 1, [] => []
  | fuel + 1, c :: cs =>
    match numAt (c :: cs) with
    | some (t, r) => t :: numericTokensGo fuel r
    | none => numericTokensGo fuel cs

/-- All numeric tokens of a line in left-to-right scan order. -/
def numericTokens (l : List Char) : List (List Char) :=
  numericTokensGo l.length l

/-- The leftmost numeric token is the head of the left-to-right token list,
for any fuel that covers the input. -/
theorem numericTokensGo_head (fuel : Nat) (l : List Char) (h : l.length ≤ fuel) :
    (numericTokensGo fuel l).head? = firstNumericToken l := by
  induction fuel generalizing l with
  | zero =>
    have : l = [] := List.eq_nil_of_length_eq_zero (Nat.le_zero.mp h)
    subst this
    simp [numericTokensGo, firstNumericToken]
  | succ n ih =>
    cases l with
    | nil => simp [numericTokensGo, firstNumericToken]
    | cons c cs =>
      unfold numericTokensGo firstNumericToken
      cases hna : numAt (c :: cs) with
      | some tr => simp
      | none =>
        simp only
        exact ih cs (Nat.le_of_succ_le_succ h)

/-- The leftmost numeric token is the head of the full token list. -/
theorem firstNumericToken_eq_head (l : List Char) :
    (numericTokens l).head? = firstNumericToken l :=
  numericTokensGo_head l.length l (Nat.le_refl _)

/-!
## Model of the Python `re` library

`search_commits` and `verify_content_accuracy` call `re.search` with
patterns taken from the configuration.  The pattern language is embedded
as an abstract syntax `RE` with a Brzozowski-derivative matcher, and a
parser from pattern text that yields `none` exactly where `re.compile`
raises `re.error` (unbalanced parentheses, dangling repeats, bad
escapes).  Character classes in brackets and `(?...)` extensions are not
part of the model; no configured pattern of the script uses them.
`\w`/`\d` are modelled over ASCII. -/

inductive RE
  | bot
  | eps
  | lit (c : Char)
  | dot
  | wclass
  | dclass
  | alt (a b : RE)
  | cat (a b : RE)
  | star (a : RE)
deriving DecidableEq

/-- Word characters for `\w` (ASCII letters, digits, underscore). -/
def isWordChar (c : Char) : Bool :=
  c.isAlphanum || c == '_'

/-- Does the regular expression accept the empty string? -/
def RE.nullable : RE → Bool
  | .bot => false
  | .eps => true
  | .lit _ => false
  | .dot => false
  | .wclass => false
  | .dclass => false
  | .alt a b => a.nullable || b.nullable
  | .cat a b => a.nullable && b.nullable
  | .star _ => true

/-- Brzozowski derivative with respect to one character.  `.` does not
match a newline, as in `re.search` without `DOTALL`. -/
def RE.derivC : RE → Char → RE
  | .bot, _ => .bot
  | .eps, _ => .bot
  | .lit c, a => if a == c then .eps else .bot
  | .dot, a => if a == '\n' then .bot else .eps
  | .wclass, a => if isWordChar a then .eps else .bot
  | .dclass, a => if a.isDigit then .eps else .bot
  | .alt r1 r2, a => .alt (r1.derivC a) (r2.derivC a)
  | .cat r1 r2, a =>
    if r1.nullable then .alt (.cat (r1.derivC a) r2) (r2.derivC a)
    else .cat (r1.derivC a) r2
  | .star r, a => .cat (r.derivC a) (.star r)

/-- Does the regular expression match some prefix of the list? -/
def matchPref : RE → List Char → Bool
  | r, [] => r.nullable
  | r, c :: cs => r.nullable || matchPref (r.derivC c) cs

/-- `re.search`: does the regular expression match somewhere in the list? -/
def reSearch : RE → List Char → Bool
  | r, [] => matchPref r []
  | r, c :: cs => matchPref r (c :: cs) || reSearch r cs

/-- Lower-case every literal of a regular expression (`re.IGNORECASE` is
modelled by lowering both the pattern's literals and the subject). -/
def RE.lower : RE → RE
  | .lit c => .lit c.toLower
  | .alt a b => .alt a.lower b.lower
  | .cat a b => .cat a.lower b.lower
  | .star r => .star r.lower
  | r => r

/-- `re.search(..., re.IGNORECASE)`. -/
def reSearchCI (r : RE) (s : List Char) : Bool :=
  reSearch r.lower (s.map Char.toLower)

/-- Apply postfix repetition operators `*`, `+`, `?` to a parsed atom. -/
def parsePost : RE → List Char → RE × List Char
  | r, '*' :: t => parsePost (.star r) t
  | r, '+' :: t => parsePost (.cat r (.star r)) t
  | r, '?' :: t => parsePost (.alt r .eps) t
  | r, s => (r, s)

mutual

/-- Alternation level of the pattern grammar (fuel-driven descent). -/
def parseAlt : Nat → List Char → Option (RE × List Char)
  | 0, _ => none
  | fuel + 1, s =>
    match parseSeq fuel s with
    | none => none
    | some (r1, rest) =>
      match rest with
      | '|' :: t =>
        match parseAlt fuel t with
        | none => none
        | some (r2, rest2) => some (.alt r1 r2, rest2)
      | _ => some (r1, rest)

/-- Concatenation level: a run of postfixed atoms up to `)`, `|` or the
end of the pattern (a run may be empty, as in Python's `a|`). -/
def parseSeq : Nat → List Char → Option (RE × List Char)
  | 0, _ => none
  | fuel + 1, s =>
    match s with
    | [] => some (.eps, [])
    | ')' :: _ => some (.eps, s)
    | '|' :: _ => some (.eps, s)
    | _ =>
      match parseAtom fuel s with
      | none => none
      | some (r1, rest) =>
        match parsePost r1 rest with
        | (r1p, rest2) =>
          match parseSeq fuel rest2 with
          | none => none
          | some (r2, rest3) => some (.cat r1p r2, rest3)

/-- One atom: a literal, `.`, an escape, or a parenthesised group.  A
repeat with nothing before it, an unclosed group and a bad escape give
`none`, as `re.compile` raises on them. -/
def parseAtom : Nat → List Char → Option (RE × List Char)
  | 0, _ => none
  | fuel + 1, s =>
    match s with
    | [] => none
    | '(' :: t =>
      match parseAlt fuel t with
      | none => none
      | some (r, rest) =>
        match rest with
        | ')' :: t2 => some (r, t2)
        | _ => none
    | ')' :: _ => none
    | '*' :: _ => none
    | '+' :: _ => none
    | '?' :: _ => none
    | '\\' :: t =>
      match t with
      | [] => none
      | e :: t2 =>
        if e == 'w' then some (.wclass, t2)
        else if e == 'd' then some (.dclass, t2)
        else if e == 'n' then some (.lit '\n', t2)
        else if e == 't' then some (.lit '\t', t2)
        else if e.isAlphanum then none
        else some (.lit e, t2)
    | '.' :: t => some (.dot, t)
    | c :: t => some (.lit c, t)

end

/-- `re.compile` on the pattern text: `some` of the abstract syntax for a
well-formed pattern (the whole text consumed), `none` where Python raises
`re.error`. -/
def parsePattern (p : List Char) : Option RE :=
  match parseAlt (4 * (p.length + 1)) p with
  | some (r, []) => some r
  | _ => none

/-- Case-insensitive search of a pattern text in a subject, `false` for a
pattern that does not compile (used to state properties of
`search_commits`). -/
def patternSearchCI (p m : List Char) : Bool :=
  match parsePattern p with
  | some r => reSearchCI r m
  | none => false

example : parsePattern ("(".toList) = none := by decide
example : (parsePattern ("document|update".toList)).isSome = true := by decide
example : patternSearchCI ("document|update".toList) ("Project UPDATE v2".toList) = true := by
  decide
example : patternSearchCI ("document|update".toList) ("fix typo".toList) = false := by
  decide

/-!
## Content rules and the verification functions
-/

/-- One entry of `content_rules`: a record with the keys `"type"`,
`"target"` and `"expected"` (the tag is an open string, as the script
dispatches on string comparison). -/
structure ContentRule where
  rtype : List Char
  target : List Char
  expected : List Char
deriving DecidableEq

/-- The `"type"` tag of a statistics rule. -/
def statTag : List Char := "stat_match".toList

/-- The `"type"` tag of a regular-expression rule. -/
def regexTag : List Char := "regex_match".toList

/-- The `"type"` tag of a literal-text rule. -/
def textTag : List Char := "text_match".toList

/-- The `stat_match` test on one line: the line contains the target label
and the leftmost numeric token of the line equals the expected text. -/
def statMatchLine (target expected line : List Char) : Bool :=
  containsStr target line && (firstNumericToken line == some expected)

/-- The `stat_match` inner loop of `verify_content_accuracy`: scan the
lines of the document in order; matched once some line passes
`statMatchLine`. -/
def statMatchRule (target expected : List Char) (lines : List (List Char)) : Bool :=
  lines.any (statMatchLine target expected)

/-- One iteration of the rule loop of `verify_content_accuracy`:
the `matched` flag for the rule, or the `re.error` the `regex_match`
branch raises on a pattern that does not compile.  A tag that is none of
the three known ones leaves `matched` at `False`. -/
def evalRule (lines : List (List Char)) (content : List Char) (r : ContentRule) :
    Except PyErr Bool :=
  if r.rtype = statTag then .ok (statMatchRule r.target r.expected lines)
  else if r.rtype = regexTag then
    match parsePattern r.expected with
    | none => .error .reError
    | some re => .ok (reSearch re content)
  else if r.rtype = textTag then .ok (containsStr r.expected content)
  else .ok false

/-- The rule loop of `verify_content_accuracy`: stop at the first rule
whose `matched` flag is false, reporting that rule's target and expected
values (the second component models the one line printed to stderr). -/
def contentRulesLoop (lines : List (List Char)) (content : List Char) :
    List ContentRule → Except PyErr (Bool × Option (List Char × List Char))
  | [] => .ok (true, none)
  | r :: rest =>
    match evalRule lines content r with
    | .error e => .error e
    | .ok true => contentRulesLoop lines content rest
    | .ok false => .ok (false, some (r.target, r.expected))

/-- `verify_content_accuracy(content, content_rules)`: auto-pass on an
empty rule list, otherwise split the document into lines once and run the
rule loop.  The boolean is the return value; the optional pair is the
target/expected of the reported failing rule. -/
def verify_content_accuracy (content : List Char) (rules : List ContentRule) :
    Except PyErr (Bool × Option (List Char × List Char)) :=
  if rules.isEmpty then .ok (true, none)
  else contentRulesLoop (splitNewline content) content rules

/-- `verify_file_structure(content, required_structures)`: the boolean
return value together with the list of missing structures the failure
line prints (all absences, in configuration order). -/
def verify_file_structure (content : List Char) (required : List (List Char)) :
    Bool × List (List Char) :=
  let missing := required.filter (fun s => !containsStr s content)
  (missing.isEmpty, missing)

/-!
## API client, content fetcher, commit search

The remote API's behaviour at the two consumed endpoints is a parameter
of the run (a `World` below).  `call_github_api` collapses 404, other
statuses and transport exceptions into `(False, None)`, so the outcome of
the contents endpoint is embedded as `ContentsOutcome`; for the commits
endpoint the outcome is a success flag and, on success, the list of
commit entries.  A commit entry is `some message` when the body has the
nested `commit.message` field, and `none` when it lacks it (subscripting
then raises `KeyError`). -/

/-- Outcome of `call_github_api` on the `contents/...` endpoint combined
with the base64/utf-8 decoding step of `get_repository_file_content`:
on HTTP 200, `success decoded` where `decoded` is `some` text or `none`
for a decoding failure; otherwise the 404 / other-status / exception
outcomes, all of which yield `(False, None)` to the caller. -/
inductive ContentsOutcome
  | success (decoded : Option (List Char))
  | notFound
  | apiError (status : Nat)
  | transportError
deriving DecidableEq

/-- `get_repository_file_content`: `none` on any API failure and on a
decoding failure, the decoded text on success. -/
def get_repository_file_content : ContentsOutcome → Option (List Char)
  | .success (some text) => some text
  | .success none => none
  | .notFound => none
  | .apiError _ => none
  | .transportError => none

/-- A commit object of the commits endpoint: `some msg` when
`commit["commit"]["message"]` is present, `none` when the nested field is
missing. -/
def CommitEntry : Type := Option (List Char)

/-- The message loop of `search_commits`: for each commit, subscripting
(`KeyError` on a missing field) comes before `re.search` compiles the
pattern (`re.error` on a malformed one); first match returns `True`. -/
def searchCommitsLoop (pattern : List Char) : List (Option (List Char)) → Except PyErr Bool
  | [] => .ok false
  | c :: rest =>
    match c with
    | none => .error .keyError
    | some msg =>
      match parsePattern pattern with
      | none => .error .reError
      | some r =>
        if reSearchCI r msg then .ok true else searchCommitsLoop pattern rest

/-- `search_commits`: `False` when the API call failed, otherwise the
case-insensitive search over the returned commit messages in API order. -/
def search_commits (apiSuccess : Bool) (commits : List (Option (List Char)))
    (pattern : List Char) : Except PyErr Bool :=
  if apiSuccess then searchCommitsLoop pattern commits else .ok false

/-!
## The verification pipeline
-/

/-- Python truthiness of an optional string: `None` and the empty string
are falsy (`if not github_token`, `if not content`). -/
def pyTruthy : Option (List Char) → Bool
  | none => false
  | some s => !s.isEmpty

/-- `verify_environment_setup` via `load_environment`: fail when either
environment value is absent (or empty, by truthiness); on success return
both values. -/
def verify_environment_setup (token org : Option (List Char)) :
    Bool × Option (List Char) × Option (List Char) :=
  if !pyTruthy token then (false, none, none)
  else if !pyTruthy org then (false, none, none)
  else (true, token, org)

/-- `verify_file_existence`: fetch the file; `if not content` fails both
for `None` and for the empty string. -/
def verify_file_existence (o : ContentsOutcome) : Bool × Option (List Char) :=
  match get_repository_file_content o with
  | none => (false, none)
  | some c => if c.isEmpty then (false, none) else (true, some c)

/-- `verify_commit_record` wraps `search_commits` (the max-commits value
only parameterises the request URL). -/
def verify_commit_record (apiSuccess : Bool) (commits : List (Option (List Char)))
    (pattern : List Char) : Except PyErr Bool :=
  search_commits apiSuccess commits pattern

/-- The `commit_verification` block of the configuration. -/
structure CommitVerification where
  msg_pattern : List Char
  max_commits : Option Nat
deriving DecidableEq

/-- The `VERIFICATION_CONFIG` structure. -/
structure VerificationConfig where
  target_repo : List Char
  file_path : List Char
  branch : List Char
  required_structures : List (List Char)
  content_rules : List ContentRule
  commit_verification : Option CommitVerification
deriving DecidableEq

/-- The state of the external world one run reads: the two environment
values and the responses of the two consumed API endpoints. -/
structure World where
  github_token : Option (List Char)
  github_org : Option (List Char)
  contents : ContentsOutcome
  commitsApiSuccess : Bool
  commits : List (Option (List Char))
deriving DecidableEq

/-- The five pipeline steps. -/
inductive Step
  | environmentCheck
  | fileExistence
  | structureCheck
  | contentCheck
  | commitCheck
deriving DecidableEq

/-- What one run of `run_verification_process` produces: its return value
(or the uncaught exception), the steps it entered in order, and the API
endpoints it requested in order. -/
structure RunOutcome where
  result : Except PyErr Bool
  steps : List Step
  apiCalls : List (List Char)
deriving DecidableEq

/-- The endpoint string of the file-contents request,
`contents/{path}?ref={branch}`. -/
def contentsEndpoint (cfg : VerificationConfig) : List Char :=
  "contents/".toList ++ cfg.file_path ++ "?ref=".toList ++ cfg.branch

/-- The endpoint string of the commit-list request,
`commits?per_page={max_commits}` with the default of 10. -/
def commitsEndpoint (cc : CommitVerification) : List Char :=
  "commits?per_page=".toList ++ (toString (cc.max_commits.getD 10)).toList

/-- `run_verification_process`: environment check, file existence,
structure, content rules, optional commit record, in that order, stopping
at the first failing step. -/
def run_verification_process (cfg : VerificationConfig) (w : World) : RunOutcome :=
  let env := verify_environment_setup w.github_token w.github_org
  if !env.1 then ⟨.ok false, [.environmentCheck], []⟩
  else
    let fe := verify_file_existence w.contents
    if !fe.1 then ⟨.ok false, [.environmentCheck, .fileExistence], [contentsEndpoint cfg]⟩
    else
      let content := fe.2.getD []
      let st := verify_file_structure content cfg.required_structures
      if !st.1 then
        ⟨.ok false, [.environmentCheck, .fileExistence, .structureCheck],
          [contentsEndpoint cfg]⟩
      else
        match verify_content_accuracy content cfg.content_rules with
        | .error e =>
          ⟨.error e, [.environmentCheck, .fileExistence, .structureCheck, .contentCheck],
            [contentsEndpoint cfg]⟩
        | .ok (false, _) =>
          ⟨.ok false, [.environmentCheck, .fileExistence, .structureCheck, .contentCheck],
            [contentsEndpoint cfg]⟩
        | .ok (true, _) =>
          match cfg.commit_verification with
          | none =>
            ⟨.ok true, [.environmentCheck, .fileExistence, .structureCheck, .contentCheck],
              [contentsEndpoint cfg]⟩
          | some cc =>
            match verify_commit_record w.commitsApiSuccess w.commits cc.msg_pattern with
            | .error e =>
              ⟨.error e,
                [.environmentCheck, .fileExistence, .structureCheck, .contentCheck,
                  .commitCheck],
                [contentsEndpoint cfg, commitsEndpoint cc]⟩
            | .ok false =>
              ⟨.ok false,
                [.environmentCheck, .fileExistence, .structureCheck, .contentCheck,
                  .commitCheck],
                [contentsEndpoint cfg, commitsEndpoint cc]⟩
            | .ok true =>
              ⟨.ok true,
                [.environmentCheck, .fileExistence, .structureCheck, .contentCheck,
                  .commitCheck],
                [contentsEndpoint cfg, commitsEndpoint cc]⟩

/-- The `__main__` block: `sys.exit(0)` when the run returns `True`,
`sys.exit(1)` when it returns `False`; an uncaught exception also
terminates the interpreter with status 1. -/
def mainExitCode (cfg : VerificationConfig) (w : World) : Nat :=
  match (run_verification_process cfg w).result with
  | .ok true => 0
  | .ok false => 1
  | .error _ => 1

/-!
## Settling the claims
-/

/-- Modelled from the spec's words, for comparison with the code's
`stat_match` evaluation: the rule is satisfied when some line of the
document contains the target label and that same line contains a numeric
token (integer or decimal) whose textual value equals the expected
string. -/
def specStatMatchAnyToken (target expected : List Char) (lines : List (List Char)) : Bool :=
  lines.any (fun line => containsStr target line && (numericTokens line).contains expected)

/-- C1 (counterexample): on the document `更新于2024年，代码行数：15800`
the line contains the target `代码行数` and contains the numeric token
`15800`, so the claimed condition holds, yet `verify_content_accuracy`
judges the rule unsatisfied: the code compares only the leftmost numeric
token of the line, `2024`. -/
theorem stat_match_any_token_refuted :
    evalRule (splitNewline ("更新于2024年，代码行数：15800".toList))
        ("更新于2024年，代码行数：15800".toList)
        ⟨statTag, "代码行数".toList, "15800".toList⟩ = .ok false ∧
      specStatMatchAnyToken ("代码行数".toList) ("15800".toList)
        (splitNewline ("更新于2024年，代码行数：15800".toList)) = true := by
  constructor
  · decide
  · decide

/-- C1 (amended): for every document and every `stat_match` rule,
`verify_content_accuracy` judges the rule satisfied if and only if some
line of the document contains the target label and the leftmost numeric
token of that same line (the head of its left-to-right token list) equals
the expected string exactly, by string comparison. -/
theorem stat_match_first_token_iff (t e content : List Char) :
    evalRule (splitNewline content) content ⟨statTag, t, e⟩ = .ok true ↔
      ∃ line ∈ splitNewline content, containsStr t line = true ∧
        (numericTokens line).head? = some e := by
  unfold evalRule
  rw [if_pos rfl]
  simp only [Except.ok.injEq, statMatchRule, List.any_eq_true, statMatchLine,
    Bool.and_eq_true, beq_iff_eq, firstNumericToken_eq_head]

/-- C2: for the `stat_match` rule with target `代码行数` and expected
`15800`, a document containing the line `代码行数：15800` passes; a
document whose only line containing the target is `代码行数：15801`
fails; and one whose only line containing the target is `代码行数：15800.0`
fails, the extracted numeral being compared to the expected value as a
string. -/
theorem stat_match_15800_examples :
    (∀ content : List Char, "代码行数：15800".toList ∈ splitNewline content →
      statMatchRule ("代码行数".toList) ("15800".toList) (splitNewline content) = true) ∧
    (∀ content : List Char,
      (∀ line ∈ splitNewline content, containsStr ("代码行数".toList) line = true →
        line = "代码行数：15801".toList) →
      statMatchRule ("代码行数".toList) ("15800".toList) (splitNewline content) = false) ∧
    (∀ content : List Char,
      (∀ line ∈ splitNewline content, containsStr ("代码行数".toList) line = true →
        line = "代码行数：15800.0".toList) →
      statMatchRule ("代码行数".toList) ("15800".toList) (splitNewline content) = false) := by
  refine ⟨fun content hmem => ?_, fun content honly => ?_, fun content honly => ?_⟩
  · rw [statMatchRule, List.any_eq_true]
    exact ⟨_, hmem, by decide⟩
  · rw [statMatchRule, List.any_eq_false]
    intro line hline
    by_cases hc : containsStr ("代码行数".toList) line = true
    · rw [honly line hline hc]; decide
    · simp only [statMatchLine, Bool.and_eq_true]
      intro h
      exact hc h.1
  · rw [statMatchRule, List.any_eq_false]
    intro line hline
    by_cases hc : containsStr ("代码行数".toList) line = true
    · rw [honly line hline hc]; decide
    · simp only [statMatchLine, Bool.and_eq_true]
      intro h
      exact hc h.1

/-- C2 (witness): the three cases at concrete documents. -/
theorem stat_match_15800_examples_check :
    statMatchRule ("代码行数".toList) ("15800".toList)
        (splitNewline ("# 报告\n代码行数：15800\n完".toList)) = true ∧
      statMatchRule ("代码行数".toList) ("15800".toList)
        (splitNewline ("# 报告\n代码行数：15801".toList)) = false ∧
      statMatchRule ("代码行数".toList) ("15800".toList)
        (splitNewline ("代码行数：15800.0".toList)) = false :=
  ⟨stat_match_15800_examples.1 _ (by decide),
    stat_match_15800_examples.2.1 _ (by decide),
    stat_match_15800_examples.2.2 _ (by decide)⟩

/-- C3: `verify_content_accuracy` auto-passes on the empty rule list, and
the rule loop short-circuits: for a rule list `[A, B]` where `A` fails,
the outcome is failure with `A`'s target and expected values reported,
whatever `B` is (`B` is never evaluated). -/
theorem content_rules_short_circuit :
    (∀ content : List Char, verify_content_accuracy content [] = .ok (true, none)) ∧
    (∀ (content : List Char) (A B : ContentRule),
      evalRule (splitNewline content) content A = .ok false →
      verify_content_accuracy content [A, B] =
        .ok (false, some (A.target, A.expected))) := by
  constructor
  · intro content
    rfl
  · intro content A B hA
    show contentRulesLoop (splitNewline content) content [A, B] = _
    rw [contentRulesLoop, hA]

/-- C3 (witness): the short-circuit at a concrete failing first rule and a
concrete (never-evaluated) second rule. -/
theorem content_rules_short_circuit_check :
    verify_content_accuracy ("abc".toList) [] = .ok (true, none) ∧
      verify_content_accuracy ("abc".toList)
          [⟨textTag, "t1".toList, "zzz".toList⟩, ⟨textTag, "t2".toList, "a".toList⟩] =
        .ok (false, some ("t1".toList, "zzz".toList)) :=
  ⟨content_rules_short_circuit.1 _,
    content_rules_short_circuit.2 _ _ _ (by decide)⟩

/-- C4: `verify_file_structure` succeeds exactly when every required
structure occurs verbatim in the fetched text, and the failure report
lists exactly the absent entries — every one of them, not just the
first. -/
theorem file_structure_complete (content : List Char) (required : List (List Char)) :
    ((verify_file_structure content required).1 = true ↔
      ∀ s ∈ required, containsStr s content = true) ∧
    (∀ s : List Char, s ∈ (verify_file_structure content required).2 ↔
      s ∈ required ∧ containsStr s content = false) := by
  constructor
  · rw [verify_file_structure]
    simp only [List.isEmpty_iff, List.filter_eq_nil_iff, Bool.not_eq_true',
      Bool.not_eq_false]
  · intro s
    rw [verify_file_structure]
    simp only [List.mem_filter, Bool.not_eq_true']

/-- C4 (witness): a text missing two of three required structures reports
both absences. -/
theorem file_structure_complete_check :
    (verify_file_structure ("# Title\nbody".toList)
        ["# Title".toList, "## A".toList, "## B".toList]).1 = false ∧
      "## A".toList ∈ (verify_file_structure ("# Title\nbody".toList)
        ["# Title".toList, "## A".toList, "## B".toList]).2 ∧
      "## B".toList ∈ (verify_file_structure ("# Title\nbody".toList)
        ["# Title".toList, "## A".toList, "## B".toList]).2 :=
  ⟨by decide,
    ((file_structure_complete _ _).2 _).mpr (by decide),
    ((file_structure_complete _ _).2 _).mpr (by decide)⟩

/-- C5 (counterexample): when the contents endpoint succeeds with a file
that decodes to the empty string, the Content Fetcher returns the empty
string — not `None` — and the FileExistence step nevertheless fails
(`if not content` is also taken by the empty string), so the step does
not fail exactly when the fetcher returns `None`. -/
theorem file_existence_empty_refuted :
    get_repository_file_content (.success (some [])) = some [] ∧
      (verify_file_existence (.success (some []))).1 = false := by
  constructor
  · rfl
  · rfl

/-- C5 (amended): the FileExistence step fails exactly when the Content
Fetcher returns `None` or the empty string; in particular on HTTP 404 the
step fails and the pipeline halts before StructureCheck is ever run. -/
theorem file_existence_fail_conditions :
    (∀ o : ContentsOutcome, (verify_file_existence o).1 = false ↔
      (get_repository_file_content o = none ∨ get_repository_file_content o = some [])) ∧
    (∀ (cfg : VerificationConfig) (w : World), w.contents = .notFound →
      pyTruthy w.github_token = true → pyTruthy w.github_org = true →
      (run_verification_process cfg w).result = .ok false ∧
      (run_verification_process cfg w).steps = [.environmentCheck, .fileExistence] ∧
      Step.structureCheck ∉ (run_verification_process cfg w).steps) := by
  constructor
  · intro o
    cases o with
    | success d =>
      cases d with
      | none => simp [verify_file_existence, get_repository_file_content]
      | some text =>
        cases text with
        | nil => simp [verify_file_existence, get_repository_file_content]
        | cons a as => simp [verify_file_existence, get_repository_file_content]
    | notFound => simp [verify_file_existence, get_repository_file_content]
    | apiError s => simp [verify_file_existence, get_repository_file_content]
    | transportError => simp [verify_file_existence, get_repository_file_content]
  · intro cfg w hnc htok horg
    have henv : (verify_environment_setup w.github_token w.github_org).1 = true := by
      rw [verify_environment_setup, htok, horg]
      rfl
    have hrun : run_verification_process cfg w =
        ⟨.ok false, [.environmentCheck, .fileExistence], [contentsEndpoint cfg]⟩ := by
      rw [run_verification_process, henv, hnc]
      rfl
    rw [hrun]
    refine ⟨rfl, rfl, ?_⟩
    simp

/-- C5 (witness): the amended statement at a concrete 404 world. -/
theorem file_existence_fail_conditions_check :
    ((verify_file_existence ContentsOutcome.notFound).1 = false ↔
      (get_repository_file_content ContentsOutcome.notFound = none ∨
        get_repository_file_content ContentsOutcome.notFound = some [])) ∧
      (run_verification_process
          ⟨"repo".toList, "doc.md".toList, "main".toList, [], [], none⟩
          ⟨some "tok".toList, some "org".toList, .notFound, true, []⟩).result = .ok false ∧
      Step.structureCheck ∉ (run_verification_process
          ⟨"repo".toList, "doc.md".toList, "main".toList, [], [], none⟩
          ⟨some "tok".toList, some "org".toList, .notFound, true, []⟩).steps :=
  ⟨file_existence_fail_conditions.1 _,
    (file_existence_fail_conditions.2 _ _ rfl (by decide) (by decide)).1,
    (file_existence_fail_conditions.2 _ _ rfl (by decide) (by decide)).2.2⟩

/-- The message loop of `search_commits`, on a commit list whose entries
all carry a message and with a pattern that compiles, returns exactly
whether some message matches. -/
theorem searchCommitsLoop_eq (p : List Char) (r : RE) (h : parsePattern p = some r) :
    ∀ commits : List (Option (List Char)), (∀ e ∈ commits, e ≠ none) →
      searchCommitsLoop p commits =
        .ok (commits.any fun c => (c.map (reSearchCI r)).getD false) := by
  intro commits
  induction commits with
  | nil => intro _; rfl
  | cons c rest ih =>
    intro hmem
    cases c with
    | none => exact absurd rfl (hmem none (List.mem_cons_self _ _))
    | some msg =>
      have hrest := ih fun e he => hmem e (List.mem_cons_of_mem _ he)
      rw [searchCommitsLoop, h]
      by_cases hm : reSearchCI r msg
      · simp [hm]
      · simp only [Bool.not_eq_true] at hm
        simp [hm, hrest]

/-- C6: `search_commits` returns `True` iff the API call succeeds and
some returned commit message (in API order) matches the configured
pattern case-insensitively, and returns `False` otherwise — for every
pattern that compiles and every commit list whose entries carry a
message. -/
theorem search_commits_match_iff (apiOk : Bool) (commits : List (Option (List Char)))
    (p : List Char) :
    (parsePattern p).isSome = true → (∀ e ∈ commits, e ≠ none) →
    ((search_commits apiOk commits p = .ok true ↔
        (apiOk = true ∧ ∃ m : List Char, some m ∈ commits ∧ patternSearchCI p m = true)) ∧
      (search_commits apiOk commits p = .ok false ↔
        ¬(apiOk = true ∧ ∃ m : List Char, some m ∈ commits ∧ patternSearchCI p m = true))) := by
  intro hp hmem
  obtain ⟨r, hr⟩ := Option.isSome_iff_exists.mp hp
  have hci : ∀ m : List Char, patternSearchCI p m = reSearchCI r m := by
    intro m
    rw [patternSearchCI, hr]
  cases apiOk with
  | false =>
    constructor
    · simp [search_commits]
    · simp [search_commits]
  | true =>
    rw [search_commits, if_pos rfl, searchCommitsLoop_eq p r hr commits hmem]
    have hany : (commits.any fun c => (c.map (reSearchCI r)).getD false) = true ↔
        ∃ m : List Char, some m ∈ commits ∧ patternSearchCI p m = true := by
      rw [List.any_eq_true]
      constructor
      · rintro ⟨c, hc, hget⟩
        cases c with
        | none => exact absurd rfl (hmem none hc)
        | some m => exact ⟨m, hc, by rw [hci]; simpa using hget⟩
      · rintro ⟨m, hm, hsearch⟩
        exact ⟨some m, hm, by rw [hci] at hsearch; simpa using hsearch⟩
    constructor
    · simp only [Except.ok.injEq, true_and]
      exact hany
    · simp only [Except.ok.injEq, true_and]
      rw [← hany]
      exact Bool.eq_false_iff

/-- C6 (witness): a commit list whose message at index 3 matches the
pattern `document|update` only up to case. -/
theorem search_commits_match_iff_check :
    search_commits true
        [some "fix typo".toList, some "refactor code".toList, some "add tests".toList,
          some "Project UPDATE v2".toList]
        ("document|update".toList) = .ok true :=
  (search_commits_match_iff true
      [some "fix typo".toList, some "refactor code".toList, some "add tests".toList,
        some "Project UPDATE v2".toList]
      ("document|update".toList) (by decide) (by decide)).1.mpr
    ⟨rfl, "Project UPDATE v2".toList, by decide, by decide⟩

/-- C7: when either environment value is missing, the run fails at the
environment step, enters no later step, and issues no API request. -/
theorem env_missing_no_network (cfg : VerificationConfig) (w : World) :
    w.github_token = none ∨ w.github_org = none →
    run_verification_process cfg w = ⟨.ok false, [.environmentCheck], []⟩ := by
  intro h
  have henv : (verify_environment_setup w.github_token w.github_org).1 = false := by
    rcases h with ht | ho
    · rw [verify_environment_setup, ht]
      rfl
    · rw [verify_environment_setup, ho]
      by_cases htok : pyTruthy w.github_token = true
      · rw [htok]
        rfl
      · rw [Bool.eq_false_iff.mpr htok]
        rfl
  rw [run_verification_process, henv]
  rfl

/-- C7 (witness): a world with no token makes the run fail at the
environment step with no API call. -/
theorem env_missing_no_network_check :
    run_verification_process
        ⟨"repo".toList, "doc.md".toList, "main".toList, [], [], none⟩
        ⟨none, some "org".toList, .notFound, true, []⟩ =
      ⟨.ok false, [.environmentCheck], []⟩ :=
  env_missing_no_network _ _ (Or.inl rfl)

/-- C8 (counterexample): a `regex_match` rule whose pattern does not
compile makes `verify_content_accuracy` raise `re.error` instead of
returning a boolean, and a commit object lacking the nested message field
makes `search_commits` raise `KeyError`; both exceptions propagate out of
the verification functions. -/
theorem uncaught_exceptions_refuted :
    verify_content_accuracy ("abc".toList) [⟨regexTag, "t".toList, "(".toList⟩] =
        .error .reError ∧
      search_commits true [none] ("a".toList) = .error .keyError := by
  constructor
  · rfl
  · rfl

/-- The rule loop raises no exception when every `regex_match` rule's
pattern compiles. -/
theorem contentRulesLoop_no_error (lines : List (List Char)) (content : List Char) :
    ∀ rules : List ContentRule,
      (∀ r ∈ rules, r.rtype = regexTag → (parsePattern r.expected).isSome = true) →
      ∃ out, contentRulesLoop lines content rules = .ok out := by
  intro rules
  induction rules with
  | nil => exact fun _ => ⟨(true, none), rfl⟩
  | cons r rest ih =>
    intro h
    have hr : ∃ b, evalRule lines content r = .ok b := by
      rw [evalRule]
      by_cases h1 : r.rtype = statTag
      · rw [if_pos h1]
        exact ⟨_, rfl⟩
      · rw [if_neg h1]
        by_cases h2 : r.rtype = regexTag
        · rw [if_pos h2]
          obtain ⟨re, hre⟩ :=
            Option.isSome_iff_exists.mp (h r (List.mem_cons_self _ _) h2)
          rw [hre]
          exact ⟨_, rfl⟩
        · rw [if_neg h2]
          by_cases h3 : r.rtype = textTag
          · rw [if_pos h3]
            exact ⟨_, rfl⟩
          · rw [if_neg h3]
            exact ⟨_, rfl⟩
    obtain ⟨b, hb⟩ := hr
    cases b with
    | false => exact ⟨(false, some (r.target, r.expected)), by rw [contentRulesLoop, hb]⟩
    | true =>
      obtain ⟨out, hout⟩ := ih fun q hq => h q (List.mem_cons_of_mem _ hq)
      exact ⟨out, by rw [contentRulesLoop, hb]; exact hout⟩

/-- C8 (amended): API failures and no-match outcomes are converted into
boolean results, and `verify_content_accuracy` and `search_commits`
return a value (raise nothing) whenever every configured pattern compiles
and every commit object carries its nested message field; but an invalid
regular expression or a malformed commit object raises an uncaught
exception (see the counterexample). -/
theorem errors_converted_when_wellformed :
    (∀ (content : List Char) (rules : List ContentRule),
      (∀ r ∈ rules, r.rtype = regexTag → (parsePattern r.expected).isSome = true) →
      ∃ out, verify_content_accuracy content rules = .ok out) ∧
    (∀ (commits : List (Option (List Char))) (p : List Char),
      (parsePattern p).isSome = true → (∀ e ∈ commits, e ≠ none) →
      ∃ b, search_commits true commits p = .ok b) ∧
    (∀ (commits : List (Option (List Char))) (p : List Char),
      search_commits false commits p = .ok false) := by
  refine ⟨fun content rules h => ?_, fun commits p hp hmem => ?_, fun commits p => rfl⟩
  · rw [verify_content_accuracy]
    by_cases he : rules.isEmpty
    · exact ⟨(true, none), by rw [if_pos he]⟩
    · rw [if_neg he]
      exact contentRulesLoop_no_error _ _ rules h
  · obtain ⟨r, hr⟩ := Option.isSome_iff_exists.mp hp
    rw [search_commits, if_pos rfl, searchCommitsLoop_eq p r hr commits hmem]
    exact ⟨_, rfl⟩

/-- C8 (witness): the amended statement at well-formed concrete inputs. -/
theorem errors_converted_when_wellformed_check :
    (∃ out, verify_content_accuracy ("contact: a@b.com".toList)
        [⟨regexTag, "email".toList, "a+b".toList⟩] = .ok out) ∧
      (∃ b, search_commits true [some "update docs".toList] ("update".toList) = .ok b) ∧
      search_commits false [] ("(".toList) = .ok false :=
  ⟨errors_converted_when_wellformed.1 _ _ (by decide),
    errors_converted_when_wellformed.2.1 _ _ (by decide) (by decide),
    errors_converted_when_wellformed.2.2 _ _⟩

/-- The end-to-end configuration of the spec's last testable property:
one required structure `# Title`, no content rules, no commit block. -/
def titleConfig : VerificationConfig :=
  ⟨"project-analysis".toList, "document/analysis-report.md".toList, "main".toList,
    ["# Title".toList], [], none⟩

/-- A world where both environment values are set and the target file
fetches as `# Title\nbody`. -/
def titleWorld : World :=
  ⟨some "ghp-token".toList, some "eval-org".toList,
    .success (some "# Title\nbody".toList), true, []⟩

/-- C9: the entry point exits with 0 or 1 and with 0 exactly when the run
returns `True` (a run in which any check fails returns `False` and exits
1); end to end, the `# Title` configuration against the file
`# Title\nbody` exits 0, the empty rule list and the absent commit block
auto-passing. -/
theorem exit_code_spec :
    (∀ (cfg : VerificationConfig) (w : World),
      (mainExitCode cfg w = 0 ∨ mainExitCode cfg w = 1) ∧
      (mainExitCode cfg w = 0 ↔ (run_verification_process cfg w).result = .ok true) ∧
      ((run_verification_process cfg w).result = .ok false → mainExitCode cfg w = 1)) ∧
    mainExitCode titleConfig titleWorld = 0 := by
  constructor
  · intro cfg w
    refine ⟨?_, ?_, ?_⟩ <;>
      rcases hres : (run_verification_process cfg w).result with e | b
    · simp [mainExitCode, hres]
    · cases b <;> simp [mainExitCode, hres]
    · simp [mainExitCode, hres]
    · cases b <;> simp [mainExitCode, hres]
    · simp [mainExitCode, hres]
    · cases b <;> simp [mainExitCode, hres]
  · decide

/-- C9 (witness): a world with both environment values missing fails a
check and exits 1. -/
theorem exit_code_spec_check :
    mainExitCode titleConfig ⟨none, none, .notFound, false, []⟩ = 1 :=
  (exit_code_spec.1 titleConfig ⟨none, none, .notFound, false, []⟩).2.2 (by decide)

/-- C10: a content rule whose type tag is none of `stat_match`,
`regex_match`, `text_match` is treated as unmatched: it is reported with
its target and expected values and `verify_content_accuracy` returns
`False` — no error is raised and the rule is not skipped. -/
theorem unknown_rule_type_fails (content : List Char) (r : ContentRule)
    (rest : List ContentRule) :
    r.rtype ≠ statTag → r.rtype ≠ regexTag → r.rtype ≠ textTag →
    evalRule (splitNewline content) content r = .ok false ∧
    verify_content_accuracy content (r :: rest) =
      .ok (false, some (r.target, r.expected)) := by
  intro h1 h2 h3
  have he : evalRule (splitNewline content) content r = .ok false := by
    unfold evalRule
    simp [h1, h2, h3]
  refine ⟨he, ?_⟩
  show contentRulesLoop (splitNewline content) content (r :: rest) = _
  rw [contentRulesLoop, he]

/-- C10 (witness): a rule with the unknown tag `enum_match` is reported
and fails, evaluated before a later rule. -/
theorem unknown_rule_type_fails_check :
    evalRule (splitNewline ("x".toList)) ("x".toList)
        ⟨"enum_match".toList, "状态".toList, "5".toList⟩ = .ok false ∧
      verify_content_accuracy ("x".toList)
          [⟨"enum_match".toList, "状态".toList, "5".toList⟩,
            ⟨textTag, "t".toList, "x".toList⟩] =
        .ok (false, some ("状态".toList, "5".toList)) :=
  unknown_rule_type_fails ("x".toList) _ _ (by decide) (by decide) (by decide)
